import Mathlib

/-!
Shallow embedding of src/distribution_center.py: the package management
engine of a distribution center.  The mutable sqlite tables (Locations,
Packages, AuditTrail) become lists inside an explicit state record, the
SQL statements of each operation become list transformations, and the
Python decision logic is translated branch by branch.  The theorems at
the end of the file settle the specified properties of the engine.
-/

/-- A row of the Locations table (distribution_center.py, schema lines 45 to 57). -/
structure Location where
  location_id : Nat
  location_code : String
  zone : String
  aisle : Nat
  shelf : Nat
  category_id : Nat
  is_occupied : Bool
  deriving DecidableEq

/-- A row of the Packages table (schema lines 60 to 77).  Weights and
dimensions are modelled as rationals; every numeric literal the code
compares against (50.0, 5.0) is exactly representable. -/
structure Package where
  package_id : Nat
  barcode : String
  weight : ℚ
  length : ℚ
  width : ℚ
  height : ℚ
  destination : String
  priority : String
  category_id : Nat
  location_id : Option Nat
  status : String
  deriving DecidableEq

/-- A row of the AuditTrail table (schema lines 80 to 93). -/
structure AuditEntry where
  package_id : Nat
  action : String
  old_status : Option String
  new_status : Option String
  old_location : Option String
  new_location : Option String
  notes : String
  deriving DecidableEq

/-- Database state: the three mutable tables in row (insertion) order, plus
the AUTOINCREMENT counter of the Packages table. -/
structure DCState where
  locations : List Location
  packages : List Package
  audit : List AuditEntry
  next_package_id : Nat
  deriving DecidableEq

/-- pat begins the list hay. -/
def charsBeginWith : List Char → List Char → Bool
  | [], _ => true
  | _ :: _, [] => false
  | a :: as, b :: bs => a == b && charsBeginWith as bs

/-- pat occurs contiguously inside hay (the Python in operator on strings). -/
def charsContain (pat : List Char) : List Char → Bool
  | [] => charsBeginWith pat []
  | b :: bs => charsBeginWith pat (b :: bs) || charsContain pat bs

/-- The Python test pat in hay on strings. -/
def strContains (hay pat : String) : Bool := charsContain pat.toList hay.toList

/-- The Python str.lower method, computed character by character (every
string the code compares case insensitively is ASCII). -/
def lowerStr (s : String) : String := String.mk (s.toList.map Char.toLower)

/-- The International test of line 171: the lowered destination contains
the word international, or the destination holds more than one comma. -/
def intlRule (destination : String) : Bool :=
  strContains (lowerStr destination) "international" || decide (destination.toList.count ',' > 1)

/-- PackageManager.categorize_package (lines 159 to 184): first matching
rule decides the category, as (category_id, category_name). -/
def categorize_package (weight : ℚ) (priority destination : String) : Nat × String :=
  if lowerStr priority == "express" then (2, "Express")
  else if intlRule destination then (5, "International")
  else if weight > 50 then (4, "Heavy")
  else if weight < 5 then (3, "Fragile")
  else (1, "Standard")

/-- PackageManager.find_available_location (lines 186 to 195): the first
unoccupied location of the category in table order, if any.  (Seeded
location ids start at 1, so the Python falsiness test on the returned id
coincides with the None test modelled by this Option.) -/
def find_available_location (s : DCState) (category_id : Nat) : Option Nat :=
  (s.locations.find? fun l => l.category_id == category_id && !l.is_occupied).map
    (fun l => l.location_id)

/-- The UPDATE Locations SET is_occupied = 1 statement of register_package
(lines 235 to 238). -/
def occupyLoc (i : Nat) (l : Location) : Location :=
  if l.location_id == i then { l with is_occupied := true } else l

/-- The UPDATE Locations SET is_occupied = 0 statement of
update_package_status (lines 317 to 322); oid is the location id held by
the package row with the given barcode. -/
def freeLoc (oid : Option Nat) (l : Location) : Location :=
  if oid == some l.location_id then { l with is_occupied := false } else l

/-- The UPDATE Packages SET status statement of update_package_status
(lines 311 to 313). -/
def setStatus (b ns : String) (p : Package) : Package :=
  if p.barcode == b then { p with status := ns } else p

/-- Outcome of register_package.  The code returns False with a distinct
error message for each failure (duplicate barcode, line 208; exhausted
location pool, line 220) and True on success. -/
inductive RegisterResult where
  | ok
  | duplicateBarcode
  | noAvailableLocation
  deriving DecidableEq

/-- The Packages row inserted by register_package (lines 224 to 230):
status Stored, the chosen category and location. -/
def newPackage (pid : Nat) (barcode : String) (weight length width height : ℚ)
    (destination priority : String) (cat locId : Nat) : Package :=
  { package_id := pid, barcode := barcode, weight := weight,
    length := length, width := width, height := height,
    destination := destination, priority := priority,
    category_id := cat, location_id := some locId, status := "Stored" }

/-- The AuditTrail row inserted by register_package (lines 247 to 252). -/
def regAudit (pid : Nat) (locCode catName : String) : AuditEntry :=
  { package_id := pid, action := "REGISTERED", old_status := none,
    new_status := some "Stored", old_location := none, new_location := some locCode,
    notes := "Package categorized as " ++ catName }

/-- The AuditTrail row inserted by update_package_status (lines 325 to 330). -/
def updAudit (pid : Nat) (oldSt ns : String) : AuditEntry :=
  { package_id := pid, action := "STATUS_UPDATE", old_status := some oldSt,
    new_status := some ns, old_location := none, new_location := none,
    notes := "Status changed from " ++ oldSt ++ " to " ++ ns }

/-- PackageManager.register_package (lines 197 to 266): duplicate barcode
check, categorization, location allocation, package insertion, occupancy
update and audit append, committed together. -/
def register_package (s : DCState) (barcode : String) (weight length width height : ℚ)
    (destination priority : String) : DCState × RegisterResult :=
  if s.packages.any (fun p => p.barcode == barcode) then
    (s, RegisterResult.duplicateBarcode)
  else
    let cat := categorize_package weight priority destination
    match s.locations.find? (fun l => l.category_id == cat.1 && !l.is_occupied) with
    | none => (s, RegisterResult.noAvailableLocation)
    | some loc =>
      ({ locations := s.locations.map (occupyLoc loc.location_id),
         packages := s.packages ++
           [newPackage s.next_package_id barcode weight length width height
              destination priority cat.1 loc.location_id],
         audit := s.audit ++ [regAudit s.next_package_id loc.location_code cat.2],
         next_package_id := s.next_package_id + 1 }, RegisterResult.ok)

/-- The delivered test of line 316: new_status.lower() == delivered. -/
def isDeliveredStatus (st : String) : Bool := lowerStr st == "delivered"

/-- PackageManager.update_package_status (lines 299 to 339): the package is
looked up by barcode, its status row updated, the location it references
freed when the new status is delivered, and one audit entry appended. -/
def update_package_status (s : DCState) (barcode new_status : String) : DCState × Bool :=
  match s.packages.find? (fun p => p.barcode == barcode) with
  | none => (s, false)
  | some pkg =>
      ({ locations :=
           if isDeliveredStatus new_status then s.locations.map (freeLoc pkg.location_id)
           else s.locations,
         packages := s.packages.map (setStatus barcode new_status),
         audit := s.audit ++ [updAudit pkg.package_id pkg.status new_status],
         next_package_id := s.next_package_id }, true)

/-- chr(64 + cat_id) of line 139. -/
def zoneOfCat (cat : Nat) : String := String.mk [Char.ofNat (64 + cat)]

/-- A two digit decimal field, as the 02d format of line 140. -/
def pad2 (n : Nat) : String := if n < 10 then "0" ++ toString n else toString n

/-- The location_code format of line 140. -/
def locationCode (cat aisle shelf : Nat) : String :=
  zoneOfCat cat ++ pad2 aisle ++ "-" ++ pad2 shelf

/-- The 100 seeded locations (lines 136 to 146): five categories, five
aisles, four shelves, ids assigned by AUTOINCREMENT in insertion order
starting at 1. -/
def initLocations : List Location :=
  (List.range' 1 5).flatMap fun cat =>
    (List.range' 1 5).flatMap fun aisle =>
      (List.range' 1 4).map fun shelf =>
        { location_id := (cat - 1) * 20 + (aisle - 1) * 4 + shelf,
          location_code := locationCode cat aisle shelf,
          zone := zoneOfCat cat, aisle := aisle, shelf := shelf,
          category_id := cat, is_occupied := false }

/-- The freshly initialized database: seeded locations, no packages, no
audit entries. -/
def initState : DCState :=
  { locations := initLocations, packages := [], audit := [], next_package_id := 1 }

/-- One mutating engine call. -/
inductive Op where
  | reg (barcode : String) (weight length width height : ℚ) (destination priority : String)
  | upd (barcode new_status : String)
  deriving DecidableEq

/-- Apply one call, keeping the resulting state. -/
def applyOp (s : DCState) : Op → DCState
  | Op.reg b w l wi h d pr => (register_package s b w l wi h d pr).1
  | Op.upd b ns => (update_package_status s b ns).1

/-- The state after a sequence of calls against the initialized database. -/
def runOps (ops : List Op) : DCState := ops.foldl applyOp initState

/-- States reachable by register and updateStatus calls. -/
def Reachable (s : DCState) : Prop := ∃ ops, runOps ops = s

/-- The update call does not target a package already in a delivered
status. -/
def updGuard (s : DCState) (b : String) : Prop :=
  ∀ p ∈ s.packages, p.barcode = b → isDeliveredStatus p.status = false

/-- States reachable when no update call ever targets a package already in
a delivered status (no re-delivery and no revival of delivered packages). -/
inductive SafeReachable : DCState → Prop where
  | init : SafeReachable initState
  | reg (s : DCState) (b : String) (w l wi h : ℚ) (d pr : String) :
      SafeReachable s → SafeReachable (register_package s b w l wi h d pr).1
  | upd (s : DCState) (b ns : String) :
      SafeReachable s → updGuard s b → SafeReachable (update_package_status s b ns).1

/-- Number of occupied locations in a zone (the left side of the occupancy
conservation property of the spec). -/
def occupiedInZone (s : DCState) (z : String) : Nat :=
  (s.locations.filter (fun l => l.zone == z && l.is_occupied)).length

/-- Number of packages in a non delivered status whose assigned location
lies in a zone (the right side of the occupancy conservation property).
A status counts as delivered exactly when the code would have released the
location for it, that is case insensitively. -/
def activePackagesInZone (s : DCState) (z : String) : Nat :=
  (s.packages.filter (fun p => !(isDeliveredStatus p.status) &&
     s.locations.any (fun l => p.location_id == some l.location_id && l.zone == z))).length

/-- The location list holds a location with this id whose zone is z (the
membership test used when counting packages per zone). -/
def idInZone (L : List Location) (z : String) (i : Nat) : Bool :=
  L.any (fun l => (some i : Option Nat) == some l.location_id && l.zone == z)

/-- Two packages, both currently Stored or InTransit, hold the same
location id. -/
def sharesLocation (p q : Package) : Bool :=
  (p.status == "Stored" || p.status == "InTransit") &&
  (q.status == "Stored" || q.status == "InTransit") &&
  p.location_id == q.location_id && !(p.location_id == none)

/-- Ids of the occupied locations of a location list, in table order. -/
def locsOccupiedIds (L : List Location) : List Nat :=
  (L.filter (fun l => l.is_occupied)).map (fun l => l.location_id)

/-- Location ids held by the packages of a package list that are in a non
delivered status, in table order. -/
def pkgsActiveIds (P : List Package) : List Nat :=
  (P.filter (fun p => !(isDeliveredStatus p.status))).filterMap (fun p => p.location_id)

/-- Ids of the occupied locations, in table order. -/
def occupiedIds (s : DCState) : List Nat := locsOccupiedIds s.locations

/-- Location ids held by packages in a non delivered status, in table order. -/
def activeIds (s : DCState) : List Nat := pkgsActiveIds s.packages

/-- The inductive state invariant: location ids pairwise distinct, barcodes
pairwise distinct, and the occupied location ids a permutation of the
location ids held by the non delivered packages. -/
structure StateInv (s : DCState) : Prop where
  locIds : s.locations.Pairwise (fun a b => a.location_id ≠ b.location_id)
  barcodes : s.packages.Pairwise (fun a b => a.barcode ≠ b.barcode)
  perm : (occupiedIds s).Perm (activeIds s)

/-- A register call that lands in category Standard, used by the concrete
scenarios below. -/
def regStd (b : String) : Op := Op.reg b 10 1 1 1 "Elsewhere" "Standard"

/-- Register A1, deliver it (freeing location 1 while the package row keeps
location id 1), register A2 (which is assigned location 1 again), then set
A1 back to Stored: two Stored packages now hold location id 1. -/
def revivalOps : List Op :=
  [regStd "A1", Op.upd "A1" "Delivered", regStd "A2", Op.upd "A1" "Stored"]

/-- Register B1, deliver it, register B2 (which is assigned location 1
again), then deliver B1 a second time: location 1 is freed although B2 is
still Stored in it. -/
def redeliveryOps : List Op :=
  [regStd "B1", Op.upd "B1" "Delivered", regStd "B2", Op.upd "B1" "Delivered"]

/-- The initialized state with one package PKG3 registered. -/
def c3State : DCState := runOps [regStd "PKG3"]

/-- The initialized state with one package PKG5 registered. -/
def c5State : DCState := runOps [regStd "PKG5"]

/-- The initialized state with one package PKG8 registered. -/
def c8State : DCState := runOps [regStd "PKG8"]

/-- The initialized state with one package PKG9 registered. -/
def c9State : DCState := runOps [regStd "PKG9"]

/-- The initialized state with one package PKGX registered. -/
def c10State : DCState := runOps [regStd "PKGX"]

/-- A one location state whose single Standard location is occupied, so the
Standard pool is exhausted. -/
def fullState : DCState :=
  { locations := [{ location_id := 1, location_code := "A01-01", zone := "A",
                    aisle := 1, shelf := 1, category_id := 1, is_occupied := true }],
    packages := [], audit := [], next_package_id := 1 }

/-- A state whose single Standard location is occupied by the already
registered package B4: its pool is exhausted and its barcode taken. -/
def fullDupState : DCState :=
  { locations := [{ location_id := 1, location_code := "A01-01", zone := "A",
                    aisle := 1, shelf := 1, category_id := 1, is_occupied := true }],
    packages := [{ package_id := 1, barcode := "B4", weight := 10, length := 1,
                   width := 1, height := 1, destination := "Elsewhere",
                   priority := "Standard", category_id := 1, location_id := some 1,
                   status := "Stored" }],
    audit := [], next_package_id := 2 }

/-!  General helper lemmas shared by several claims. -/

theorem forall2_map_self {α : Type} (f : α → α) (R : α → α → Prop) :
    ∀ l : List α, (∀ a ∈ l, R a (f a)) → List.Forall₂ R l (l.map f)
  | [], _ => List.Forall₂.nil
  | a :: as, h =>
      List.Forall₂.cons (h a (List.mem_cons_self a as))
        (forall2_map_self f R as fun x hx => h x (List.mem_cons_of_mem a hx))

theorem unique_barcode_eq {l : List Package} {p q : Package}
    (huniq : l.Pairwise (fun a c => a.barcode ≠ c.barcode))
    (hp : p ∈ l) (hq : q ∈ l) (hb : p.barcode = q.barcode) : p = q := by
  by_contra hne
  have hsym : Symmetric (fun a c : Package => a.barcode ≠ c.barcode) := by
    intro a c hac heq
    exact hac heq.symm
  exact huniq.forall hsym hp hq hne hb

theorem find?_barcode_eq {l : List Package} {b : String} {p : Package}
    (huniq : l.Pairwise (fun a c => a.barcode ≠ c.barcode))
    (hp : p ∈ l) (hb : p.barcode = b) :
    l.find? (fun q => q.barcode == b) = some p := by
  induction l with
  | nil => cases hp
  | cons a as ih =>
    by_cases ha : a.barcode = b
    · have hpa : p = a := by
        rcases List.mem_cons.mp hp with h1 | h1
        · exact h1
        · exact absurd (ha.trans hb.symm) ((List.pairwise_cons.mp huniq).1 p h1)
      rw [hpa, List.find?_cons_of_pos]
      simpa using ha
    · have hpas : p ∈ as := by
        rcases List.mem_cons.mp hp with h1 | h1
        · exact absurd (h1 ▸ hb) ha
        · exact h1
      rw [List.find?_cons_of_neg]
      · exact ih (List.pairwise_cons.mp huniq).2 hpas
      · simpa using ha

/-- C1: categorize_package is a pure function of weight, priority tag and
destination whose rules fire in strict first match order: express priority
first, then the international destination rule, then weight above 50
(Heavy), then weight below 5 (Fragile), otherwise Standard; in particular
an express priority beats the weight rule at weight 60, for every
destination. -/
theorem c1_categorize_first_match :
    (∀ (w : ℚ) (p d : String), lowerStr p = "express" →
        categorize_package w p d = (2, "Express")) ∧
    (∀ (w : ℚ) (p d : String), lowerStr p ≠ "express" → intlRule d = true →
        categorize_package w p d = (5, "International")) ∧
    (∀ (w : ℚ) (p d : String), lowerStr p ≠ "express" → intlRule d = false → w > 50 →
        categorize_package w p d = (4, "Heavy")) ∧
    (∀ (w : ℚ) (p d : String), lowerStr p ≠ "express" → intlRule d = false →
        ¬ w > 50 → w < 5 → categorize_package w p d = (3, "Fragile")) ∧
    (∀ (w : ℚ) (p d : String), lowerStr p ≠ "express" → intlRule d = false →
        ¬ w > 50 → ¬ w < 5 → categorize_package w p d = (1, "Standard")) ∧
    (∀ d : String, categorize_package 60 "Express" d = (2, "Express")) := by
  refine ⟨?_, ?_, ?_, ?_, ?_, ?_⟩
  · intro w p d h; simp [categorize_package, h]
  · intro w p d h h2; simp [categorize_package, h, h2]
  · intro w p d h h2 h3; simp [categorize_package, h, h2, h3]
  · intro w p d h h2 h3 h4; simp [categorize_package, h, h2, h3, h4]
  · intro w p d h h2 h3 h4; simp [categorize_package, h, h2, h3, h4]
  · intro d
    have h : lowerStr "Express" = "express" := by decide
    simp [categorize_package, h]

/-- Witness for C1: each rule fires on a concrete input. -/
theorem c1_categorize_first_match_witness :
    categorize_package 60 "Express" "Boston, USA" = (2, "Express") ∧
    categorize_package 10 "standard" "a,b,c" = (5, "International") ∧
    categorize_package 60 "Standard" "Houston" = (4, "Heavy") ∧
    categorize_package 3 "Standard" "Houston" = (3, "Fragile") ∧
    categorize_package 10 "Standard" "Houston" = (1, "Standard") :=
  ⟨c1_categorize_first_match.1 60 "Express" "Boston, USA" (by decide),
   c1_categorize_first_match.2.1 10 "standard" "a,b,c" (by decide) (by decide),
   c1_categorize_first_match.2.2.1 60 "Standard" "Houston" (by decide) (by decide)
     (by norm_num),
   c1_categorize_first_match.2.2.2.1 3 "Standard" "Houston" (by decide) (by decide)
     (by norm_num) (by norm_num),
   c1_categorize_first_match.2.2.2.2.1 10 "Standard" "Houston" (by decide) (by decide)
     (by norm_num) (by norm_num)⟩

/-- C2 counterexample: a two component destination with a non express
priority does not fire the International rule; the code demands strictly
more than one comma, so Boston, USA falls through to the weight rule. -/
theorem c2_counterexample :
    categorize_package 60 "Standard" "Boston, USA" = (4, "Heavy") ∧
    categorize_package 60 "Standard" "Boston, USA" ≠ (5, "International") := by
  constructor
  · decide
  · decide

/-- C2 as amended: for a non express priority, categorize returns
International exactly when the lowered destination contains the word
international or the destination holds strictly more than one comma, that
is at least three comma separated components; a two component destination
does not qualify. -/
theorem c2_international_rule (w : ℚ) (p d : String) (h : lowerStr p ≠ "express") :
    categorize_package w p d = (5, "International") ↔ intlRule d = true := by
  cases hr : intlRule d with
  | true => simp [categorize_package, h, hr]
  | false =>
    simp only [categorize_package, h, hr]
    constructor
    · intro hq
      split_ifs at hq <;> simp_all
    · intro hq
      cases hq

/-- C4: when the pool of the chosen category is exhausted (and the barcode
is fresh, so the earlier duplicate check does not fire instead), register
fails with NoAvailableLocation and returns the state unchanged: no package
row is created, no occupancy flag changes, no audit entry is appended. -/
theorem c4_exhaustion_atomic (s : DCState) (b : String) (w l wi h : ℚ) (d pr : String)
    (hfresh : ∀ p ∈ s.packages, p.barcode ≠ b)
    (hfull : ∀ loc ∈ s.locations,
        loc.category_id = (categorize_package w pr d).1 → loc.is_occupied = true) :
    register_package s b w l wi h d pr = (s, RegisterResult.noAvailableLocation) := by
  have hany : s.packages.any (fun p => p.barcode == b) = false := by
    rw [List.any_eq_false]
    intro p hp
    simpa using hfresh p hp
  have hfind : s.locations.find?
      (fun l2 => l2.category_id == (categorize_package w pr d).1 && !l2.is_occupied) = none := by
    rw [List.find?_eq_none]
    intro l2 hl2
    simp only [Bool.and_eq_true, beq_iff_eq, Bool.not_eq_true', not_and]
    intro hcat
    simp [hfull l2 hl2 hcat]
  simp [register_package, hany, hfind]

/-- Witness for C4: the single Standard location of fullState is occupied,
so registering a Standard package fails and changes nothing. -/
theorem c4_exhaustion_atomic_witness :
    register_package fullState "W4" 10 1 1 1 "Elsewhere" "Standard" =
      (fullState, RegisterResult.noAvailableLocation) :=
  c4_exhaustion_atomic fullState "W4" 10 1 1 1 "Elsewhere" "Standard"
    (by decide) (by decide)

/-- C8: updateStatus fails exactly when the barcode is unknown, leaving the
state unchanged, and succeeds for every new status string whenever the
package exists: no transition is rejected, Delivered to Stored included. -/
theorem c8_update_package_not_found (s : DCState) (b ns : String) :
    ((update_package_status s b ns).2 = false ↔ ∀ p ∈ s.packages, p.barcode ≠ b) ∧
    ((∀ p ∈ s.packages, p.barcode ≠ b) → (update_package_status s b ns).1 = s) ∧
    ((∃ p ∈ s.packages, p.barcode = b) → (update_package_status s b ns).2 = true) := by
  cases hf : s.packages.find? (fun p => p.barcode == b) with
  | none =>
    have hall := List.find?_eq_none.mp hf
    refine ⟨?_, ?_, ?_⟩
    · constructor
      · intro _ p hp
        simpa using hall p hp
      · intro _
        simp [update_package_status, hf]
    · intro _
      simp [update_package_status, hf]
    · rintro ⟨p, hp, hb⟩
      exact absurd (by simpa using hb) (hall p hp)
  | some pkg =>
    have hmem := List.mem_of_find?_eq_some hf
    have hbc : pkg.barcode = b := by simpa using List.find?_some hf
    refine ⟨?_, ?_, ?_⟩
    · simp only [update_package_status, hf]
      constructor
      · intro hfalse
        cases hfalse
      · intro hall
        exact absurd hbc (hall pkg hmem)
    · intro hall
      exact absurd hbc (hall pkg hmem)
    · intro _
      simp [update_package_status, hf]

/-- Witness for C8: updating an unknown barcode fails and changes nothing;
updating the registered package PKG8 succeeds. -/
theorem c8_update_package_not_found_witness :
    (update_package_status c8State "GHOST" "Delivered").1 = c8State ∧
    (update_package_status c8State "PKG8" "Delivered").2 = true :=
  ⟨(c8_update_package_not_found c8State "GHOST" "Delivered").2.1 (by decide),
   (c8_update_package_not_found c8State "PKG8" "Delivered").2.2
     ⟨(c8State.packages.get ⟨0, by decide⟩), by decide, by decide⟩⟩

/-- C10: for an existing package and a new status that is not delivered,
updateStatus rewrites only the status of the rows carrying that barcode:
every location keeps its occupancy flag, every other package row is
untouched, and the target row keeps its location reference, category,
barcode, dimensions, destination and priority. -/
theorem c10_update_frame (s : DCState) (b ns : String) (p : Package)
    (hp : p ∈ s.packages) (hpb : p.barcode = b)
    (hns : isDeliveredStatus ns = false) :
    (update_package_status s b ns).1.locations = s.locations ∧
    (update_package_status s b ns).1.next_package_id = s.next_package_id ∧
    List.Forall₂ (fun q q2 =>
        q2.package_id = q.package_id ∧ q2.barcode = q.barcode ∧ q2.weight = q.weight ∧
        q2.length = q.length ∧ q2.width = q.width ∧ q2.height = q.height ∧
        q2.destination = q.destination ∧ q2.priority = q.priority ∧
        q2.category_id = q.category_id ∧ q2.location_id = q.location_id ∧
        (q.barcode ≠ b → q2 = q) ∧ (q.barcode = b → q2.status = ns))
      s.packages (update_package_status s b ns).1.packages := by
  have hfs : (s.packages.find? (fun q => q.barcode == b)).isSome := by
    rw [List.find?_isSome]
    exact ⟨p, hp, by simpa using hpb⟩
  obtain ⟨pkg, hf⟩ := Option.isSome_iff_exists.mp hfs
  refine ⟨?_, ?_, ?_⟩
  · simp [update_package_status, hf, hns]
  · simp [update_package_status, hf]
  · simp only [update_package_status, hf]
    apply forall2_map_self
    intro q hq
    by_cases hqb : q.barcode = b
    · simp [setStatus, hqb]
    · simp [setStatus, hqb]

/-- Witness for C10: setting PKGX to InTransit changes no location and only
that package row status. -/
theorem c10_update_frame_witness :
    (update_package_status c10State "PKGX" "InTransit").1.locations = c10State.locations ∧
    (update_package_status c10State "PKGX" "InTransit").1.next_package_id =
      c10State.next_package_id :=
  ⟨(c10_update_frame c10State "PKGX" "InTransit" (c10State.packages.get ⟨0, by decide⟩)
      (by decide) (by decide) (by decide)).1,
   (c10_update_frame c10State "PKGX" "InTransit" (c10State.packages.get ⟨0, by decide⟩)
      (by decide) (by decide) (by decide)).2.1⟩

/-- C9: a successful register appends exactly one REGISTERED audit row
carrying new status Stored and the code of the assigned location, a
successful updateStatus appends exactly one STATUS_UPDATE audit row
carrying the old and the new status, and failed calls append nothing. -/
theorem c9_audit_exactly_one (s : DCState) (b : String) (w l wi h : ℚ) (d pr ns : String) :
    ((register_package s b w l wi h d pr).2 = RegisterResult.ok →
      ∃ loc ∈ s.locations,
        (register_package s b w l wi h d pr).1.audit =
          s.audit ++ [regAudit s.next_package_id loc.location_code
                        (categorize_package w pr d).2] ∧
        (register_package s b w l wi h d pr).1.packages =
          s.packages ++ [newPackage s.next_package_id b w l wi h d pr
                           (categorize_package w pr d).1 loc.location_id]) ∧
    ((register_package s b w l wi h d pr).2 ≠ RegisterResult.ok →
      (register_package s b w l wi h d pr).1.audit = s.audit) ∧
    ((update_package_status s b ns).2 = true →
      ∃ pkg, s.packages.find? (fun q => q.barcode == b) = some pkg ∧
        (update_package_status s b ns).1.audit =
          s.audit ++ [updAudit pkg.package_id pkg.status ns]) ∧
    ((update_package_status s b ns).2 = false →
      (update_package_status s b ns).1.audit = s.audit) := by
  refine ⟨?_, ?_, ?_, ?_⟩
  · intro hok
    cases hany : s.packages.any (fun q => q.barcode == b) with
    | true => simp [register_package, hany] at hok
    | false =>
      cases hfind : s.locations.find? (fun l2 =>
          l2.category_id == (categorize_package w pr d).1 && !l2.is_occupied) with
      | none => simp [register_package, hany, hfind] at hok
      | some loc =>
        exact ⟨loc, List.mem_of_find?_eq_some hfind,
          by simp [register_package, hany, hfind],
          by simp [register_package, hany, hfind]⟩
  · intro hko
    cases hany : s.packages.any (fun q => q.barcode == b) with
    | true => simp [register_package, hany]
    | false =>
      cases hfind : s.locations.find? (fun l2 =>
          l2.category_id == (categorize_package w pr d).1 && !l2.is_occupied) with
      | none => simp [register_package, hany, hfind]
      | some loc => exact absurd (by simp [register_package, hany, hfind]) hko
  · intro hok
    cases hf : s.packages.find? (fun q => q.barcode == b) with
    | none => simp [update_package_status, hf] at hok
    | some pkg => exact ⟨pkg, rfl, by simp [update_package_status, hf]⟩
  · intro hko
    cases hf : s.packages.find? (fun q => q.barcode == b) with
    | none => simp [update_package_status, hf]
    | some pkg => simp [update_package_status, hf] at hko

/-- Witness for C9: registering PKG9 appends one audit row, and updating it
appends one more. -/
theorem c9_audit_exactly_one_witness :
    (register_package initState "PKG9" 10 1 1 1 "Elsewhere" "Standard").1.audit.length =
      initState.audit.length + 1 ∧
    (update_package_status c9State "PKG9" "InTransit").1.audit.length =
      c9State.audit.length + 1 := by
  constructor
  · obtain ⟨loc, _, ha, _⟩ :=
      (c9_audit_exactly_one initState "PKG9" 10 1 1 1 "Elsewhere" "Standard" "InTransit").1
        (by decide)
    simp [ha]
  · obtain ⟨pkg, _, ha⟩ :=
      (c9_audit_exactly_one c9State "PKG9" 10 1 1 1 "Elsewhere" "Standard" "InTransit").2.2.1
        (by decide)
    simp [ha]

/-- C3 counterexample: after registering PKG3 (Stored at location id 1),
delivering it succeeds and frees the location, but the package row still
references location id 1: the location reference is not cleared. -/
theorem c3_counterexample :
    ((c3State.packages.any fun p => p.barcode == "PKG3" && p.status == "Stored") = true) ∧
    (update_package_status c3State "PKG3" "Delivered").2 = true ∧
    ((update_package_status c3State "PKG3" "Delivered").1.packages.any
        fun p => p.barcode == "PKG3" && p.location_id == some 1) = true := by
  refine ⟨by decide, by decide, by decide⟩

/-- C3 as amended: delivering a Stored package succeeds, sets the occupancy
flag of its location to false and makes that location pool allocatable
again, but the package row keeps its location reference (the code never
clears Packages.location_id). -/
theorem c3_delivery_frees_location (s : DCState) (p : Package) (b : String) (i : Nat)
    (huniq : s.packages.Pairwise (fun a c => a.barcode ≠ c.barcode))
    (hp : p ∈ s.packages) (hpb : p.barcode = b) (hst : p.status = "Stored")
    (hloc : p.location_id = some i) :
    (update_package_status s b "Delivered").2 = true ∧
    (∀ l ∈ (update_package_status s b "Delivered").1.locations,
        l.location_id = i → l.is_occupied = false) ∧
    (∀ q ∈ (update_package_status s b "Delivered").1.packages, q.barcode = b →
        q.status = "Delivered" ∧ q.location_id = some i) ∧
    (∀ l ∈ (update_package_status s b "Delivered").1.locations, l.location_id = i →
        (find_available_location (update_package_status s b "Delivered").1
          l.category_id).isSome) := by
  have hf : s.packages.find? (fun q => q.barcode == b) = some p :=
    find?_barcode_eq huniq hp hpb
  have hdel : isDeliveredStatus "Delivered" = true := by decide
  have hlocs : (update_package_status s b "Delivered").1.locations =
      s.locations.map (freeLoc p.location_id) := by
    simp [update_package_status, hf, hdel]
  have hfree : ∀ l ∈ (update_package_status s b "Delivered").1.locations,
      l.location_id = i → l.is_occupied = false := by
    rw [hlocs]
    intro l hl hli
    obtain ⟨l0, hl0, rfl⟩ := List.mem_map.mp hl
    have hid : l0.location_id = i := by
      by_cases hc : p.location_id == some l0.location_id
      · simp [freeLoc, hc] at hli ⊢
        exact hli
      · simp [freeLoc, hc] at hli
        exact hli
    have hc : p.location_id == some l0.location_id := by
      rw [hloc, hid]
      simp
    simp [freeLoc, hc]
  refine ⟨by simp [update_package_status, hf], hfree, ?_, ?_⟩
  · intro q hq hqb
    have hpkgs : (update_package_status s b "Delivered").1.packages =
        s.packages.map (setStatus b "Delivered") := by
      simp [update_package_status, hf]
    rw [hpkgs] at hq
    obtain ⟨q0, hq0, rfl⟩ := List.mem_map.mp hq
    have hq0b : q0.barcode = b := by
      by_cases hc : q0.barcode == b
      · simpa using hc
      · simp [setStatus, hc] at hqb
        exact absurd (by simpa using hqb) (by simpa using hc)
    have hq0p : q0 = p := unique_barcode_eq huniq hq0 hp (hq0b.trans hpb.symm)
    subst hq0p
    have hc : q0.barcode == b := by simpa using hq0b
    simp [setStatus, hc, hloc]
  · intro l hl hli
    rw [find_available_location]
    have hocc : l.is_occupied = false := hfree l hl hli
    rw [Option.isSome_map']
    rw [List.find?_isSome]
    exact ⟨l, hl, by simp [hocc]⟩

/-- Witness for C3 as amended: delivering PKG3 succeeds, location id 1 is
freed and allocatable again, and the package row keeps location id 1. -/
theorem c3_delivery_frees_location_witness :
    (update_package_status c3State "PKG3" "Delivered").2 = true ∧
    (∀ q ∈ (update_package_status c3State "PKG3" "Delivered").1.packages,
        q.barcode = "PKG3" → q.status = "Delivered" ∧ q.location_id = some 1) := by
  have hmain := c3_delivery_frees_location c3State (c3State.packages.get ⟨0, by decide⟩)
    "PKG3" 1 (by decide) (by decide) (by decide) (by decide) (by decide)
  exact ⟨hmain.1, hmain.2.2.1⟩

theorem setStatus_barcode (b ns : String) (p : Package) :
    (setStatus b ns p).barcode = p.barcode := by
  rw [setStatus]
  split <;> rfl

theorem register_preserves_barcodes (s : DCState) (b : String) (w l wi h : ℚ)
    (d pr : String) (hu : s.packages.Pairwise (fun a c => a.barcode ≠ c.barcode)) :
    (register_package s b w l wi h d pr).1.packages.Pairwise
      (fun a c => a.barcode ≠ c.barcode) := by
  cases hany : s.packages.any (fun q => q.barcode == b) with
  | true => simpa [register_package, hany] using hu
  | false =>
    cases hfind : s.locations.find? (fun l2 =>
        l2.category_id == (categorize_package w pr d).1 && !l2.is_occupied) with
    | none => simpa [register_package, hany, hfind] using hu
    | some loc =>
      have hfresh : ∀ q ∈ s.packages, q.barcode ≠ b := by
        rw [List.any_eq_false] at hany
        intro q hq
        simpa using hany q hq
      simp only [register_package, hany, hfind, Bool.false_eq_true, if_false]
      rw [List.pairwise_append]
      refine ⟨hu, by simp, ?_⟩
      intro a ha a2 ha2
      have : a2 = newPackage s.next_package_id b w l wi h d pr
          (categorize_package w pr d).1 loc.location_id := by simpa using ha2
      subst this
      simpa [newPackage] using hfresh a ha

theorem update_preserves_barcodes (s : DCState) (b ns : String)
    (hu : s.packages.Pairwise (fun a c => a.barcode ≠ c.barcode)) :
    (update_package_status s b ns).1.packages.Pairwise
      (fun a c => a.barcode ≠ c.barcode) := by
  cases hf : s.packages.find? (fun q => q.barcode == b) with
  | none => simpa [update_package_status, hf] using hu
  | some pkg =>
    simp only [update_package_status, hf]
    rw [List.pairwise_map]
    apply hu.imp
    intro a c hac
    rw [setStatus_barcode, setStatus_barcode]
    exact hac

theorem foldl_applyOp_inv (P : DCState → Prop)
    (hreg : ∀ (s : DCState) (b : String) (w l wi h : ℚ) (d pr : String),
      P s → P (register_package s b w l wi h d pr).1)
    (hupd : ∀ (s : DCState) (b ns : String), P s → P (update_package_status s b ns).1) :
    ∀ (ops : List Op) (s0 : DCState), P s0 → P (ops.foldl applyOp s0)
  | [], _, hP => hP
  | op :: ops, s0, hP =>
      foldl_applyOp_inv P hreg hupd ops (applyOp s0 op) (by
        cases op with
        | reg b w l wi h2 d pr => exact hreg s0 b w l wi h2 d pr hP
        | upd b ns => exact hupd s0 b ns hP)

theorem reachable_barcodes {s : DCState} (hs : Reachable s) :
    s.packages.Pairwise (fun a c => a.barcode ≠ c.barcode) := by
  obtain ⟨ops, rfl⟩ := hs
  exact foldl_applyOp_inv _ register_preserves_barcodes update_preserves_barcodes
    ops initState (by simp [initState])

/-- C5: register fails with DuplicateBarcode exactly when a package with
that barcode already exists, in that case leaving the state unchanged, and
consequently every reachable state has pairwise distinct barcodes. -/
theorem c5_duplicate_barcode :
    (∀ (s : DCState) (b : String) (w l wi h : ℚ) (d pr : String),
      ((register_package s b w l wi h d pr).2 = RegisterResult.duplicateBarcode ↔
        ∃ p ∈ s.packages, p.barcode = b) ∧
      ((∃ p ∈ s.packages, p.barcode = b) → (register_package s b w l wi h d pr).1 = s)) ∧
    (∀ s : DCState, Reachable s →
      s.packages.Pairwise (fun a c => a.barcode ≠ c.barcode)) := by
  constructor
  · intro s b w l wi h d pr
    cases hany : s.packages.any (fun q => q.barcode == b) with
    | true =>
      have hex : ∃ p ∈ s.packages, p.barcode = b := by
        rw [List.any_eq_true] at hany
        obtain ⟨p, hp, hb⟩ := hany
        exact ⟨p, hp, by simpa using hb⟩
      refine ⟨?_, fun _ => by simp [register_package, hany]⟩
      constructor
      · intro _
        exact hex
      · intro _
        simp [register_package, hany]
    | false =>
      have hnex : ¬ ∃ p ∈ s.packages, p.barcode = b := by
        rw [List.any_eq_false] at hany
        rintro ⟨p, hp, hb⟩
        exact hany p hp (by simpa using hb)
      refine ⟨?_, fun hex => absurd hex hnex⟩
      constructor
      · intro hdup
        cases hfind : s.locations.find? (fun l2 =>
            l2.category_id == (categorize_package w pr d).1 && !l2.is_occupied) with
        | none => simp [register_package, hany, hfind] at hdup
        | some loc => simp [register_package, hany, hfind] at hdup
      · intro hex
        exact absurd hex hnex
  · exact fun s hs => reachable_barcodes hs

/-- Witness for C5: re-registering PKG5 fails with DuplicateBarcode, and
the initialized state has pairwise distinct barcodes. -/
theorem c5_duplicate_barcode_witness :
    (register_package c5State "PKG5" 10 1 1 1 "Elsewhere" "Standard").2 =
      RegisterResult.duplicateBarcode ∧
    initState.packages.Pairwise (fun a c => a.barcode ≠ c.barcode) :=
  ⟨(c5_duplicate_barcode.1 c5State "PKG5" 10 1 1 1 "Elsewhere" "Standard").1.mpr
     ⟨c5State.packages.get ⟨0, by decide⟩, by decide, by decide⟩,
   c5_duplicate_barcode.2 initState ⟨[], rfl⟩⟩

/-- C4 counterexample: the Standard pool of fullDupState is exhausted, yet
register with the already taken barcode B4 does not fail with
NoAvailableLocation: the duplicate barcode check fires first. -/
theorem c4_counterexample :
    (∀ loc ∈ fullDupState.locations,
        loc.category_id = (categorize_package 10 "Standard" "Elsewhere").1 →
          loc.is_occupied = true) ∧
    (register_package fullDupState "B4" 10 1 1 1 "Elsewhere" "Standard").2 ≠
      RegisterResult.noAvailableLocation := by
  refine ⟨by decide, by decide⟩

/-!  Occupancy bookkeeping lemmas: how the occupied id list and the active
package id list move under the two location flips and the status update. -/

theorem occupyLoc_location_id (i : Nat) (l : Location) :
    (occupyLoc i l).location_id = l.location_id := by
  rw [occupyLoc]
  split <;> rfl

theorem freeLoc_location_id (oid : Option Nat) (l : Location) :
    (freeLoc oid l).location_id = l.location_id := by
  rw [freeLoc]
  split <;> rfl

theorem locIds_map_pairwise (f : Location → Location)
    (hf : ∀ l, (f l).location_id = l.location_id) (L : List Location)
    (h : L.Pairwise (fun a b => a.location_id ≠ b.location_id)) :
    (L.map f).Pairwise (fun a b => a.location_id ≠ b.location_id) := by
  rw [List.pairwise_map]
  apply h.imp
  intro a b hab
  rw [hf, hf]
  exact hab

theorem locsOccupiedIds_cons_occ (x : Location) (L : List Location)
    (h : x.is_occupied = true) :
    locsOccupiedIds (x :: L) = x.location_id :: locsOccupiedIds L := by
  simp [locsOccupiedIds, List.filter_cons, h]

theorem locsOccupiedIds_cons_free (x : Location) (L : List Location)
    (h : x.is_occupied = false) :
    locsOccupiedIds (x :: L) = locsOccupiedIds L := by
  simp [locsOccupiedIds, List.filter_cons, h]

theorem mem_locsOccupiedIds {L : List Location} {i : Nat} :
    i ∈ locsOccupiedIds L ↔ ∃ l ∈ L, l.is_occupied = true ∧ l.location_id = i := by
  constructor
  · intro hmem
    obtain ⟨l, hl, hid⟩ := List.mem_map.mp hmem
    obtain ⟨hlL, hocc⟩ := List.mem_filter.mp hl
    exact ⟨l, hlL, hocc, hid⟩
  · rintro ⟨l, hlL, hocc, hid⟩
    exact List.mem_map.mpr ⟨l, List.mem_filter.mpr ⟨hlL, hocc⟩, hid⟩

theorem pkgsActiveIds_cons_active (p : Package) (P : List Package) (i : Nat)
    (h : isDeliveredStatus p.status = false) (hl : p.location_id = some i) :
    pkgsActiveIds (p :: P) = i :: pkgsActiveIds P := by
  simp [pkgsActiveIds, List.filter_cons, h, List.filterMap_cons, hl]

theorem pkgsActiveIds_cons_noloc (p : Package) (P : List Package)
    (h : isDeliveredStatus p.status = false) (hl : p.location_id = none) :
    pkgsActiveIds (p :: P) = pkgsActiveIds P := by
  simp [pkgsActiveIds, List.filter_cons, h, List.filterMap_cons, hl]

theorem pkgsActiveIds_cons_delivered (p : Package) (P : List Package)
    (h : isDeliveredStatus p.status = true) :
    pkgsActiveIds (p :: P) = pkgsActiveIds P := by
  simp [pkgsActiveIds, List.filter_cons, h]

theorem pkgsActiveIds_append (P Q : List Package) :
    pkgsActiveIds (P ++ Q) = pkgsActiveIds P ++ pkgsActiveIds Q := by
  simp [pkgsActiveIds, List.filter_append, List.filterMap_append]

theorem mem_pkgsActiveIds {P : List Package} {i : Nat} :
    i ∈ pkgsActiveIds P ↔
      ∃ p ∈ P, isDeliveredStatus p.status = false ∧ p.location_id = some i := by
  constructor
  · intro hmem
    obtain ⟨p, hp, hid⟩ := List.mem_filterMap.mp hmem
    obtain ⟨hpP, hact⟩ := List.mem_filter.mp hp
    exact ⟨p, hpP, by simpa using hact, hid⟩
  · rintro ⟨p, hpP, hact, hid⟩
    exact List.mem_filterMap.mpr ⟨p, List.mem_filter.mpr ⟨hpP, by simpa using hact⟩, hid⟩

theorem occupy_filter_perm (loc : Location) :
    ∀ L : List Location, L.Pairwise (fun a b => a.location_id ≠ b.location_id) →
      loc ∈ L → loc.is_occupied = false →
      List.Perm (locsOccupiedIds (L.map (occupyLoc loc.location_id)))
        (loc.location_id :: locsOccupiedIds L) := by
  intro L
  induction L with
  | nil =>
    intro _ hmem _
    cases hmem
  | cons x xs ih =>
    intro hdist hmem hocc
    have hx := (List.pairwise_cons.mp hdist).1
    have hxs := (List.pairwise_cons.mp hdist).2
    by_cases hid : x.location_id = loc.location_id
    · obtain rfl : loc = x := by
        rcases List.mem_cons.mp hmem with h1 | h1
        · exact h1
        · exact absurd hid (hx loc h1)
      have hmapxs : xs.map (occupyLoc loc.location_id) = xs := by
        rw [List.map_congr_left (g := id), List.map_id]
        intro a ha
        have hne : ¬ ((a.location_id == loc.location_id) = true) := by
          simp only [beq_iff_eq]
          exact fun he => hx a ha he.symm
        rw [occupyLoc, if_neg hne]
        rfl
      have hself : occupyLoc loc.location_id loc = { loc with is_occupied := true } := by
        rw [occupyLoc, if_pos]
        simp
      rw [List.map_cons, hmapxs, hself, locsOccupiedIds_cons_occ _ _ rfl,
        locsOccupiedIds_cons_free loc xs hocc]
    · have hmem2 : loc ∈ xs := by
        rcases List.mem_cons.mp hmem with h1 | h1
        · exact absurd (by rw [h1]) hid
        · exact h1
      have hxloc : occupyLoc loc.location_id x = x := by
        have hne : ¬ ((x.location_id == loc.location_id) = true) := by
          simp only [beq_iff_eq]
          exact hid
        rw [occupyLoc, if_neg hne]
      rw [List.map_cons, hxloc]
      have ihx := ih hxs hmem2 hocc
      cases hxo : x.is_occupied with
      | true =>
        rw [locsOccupiedIds_cons_occ x _ hxo, locsOccupiedIds_cons_occ x xs hxo]
        exact (ihx.cons x.location_id).trans
          (List.Perm.swap loc.location_id x.location_id (locsOccupiedIds xs))
      | false =>
        rw [locsOccupiedIds_cons_free x _ hxo, locsOccupiedIds_cons_free x xs hxo]
        exact ihx

theorem free_filter_perm (loc : Location) :
    ∀ L : List Location, L.Pairwise (fun a b => a.location_id ≠ b.location_id) →
      loc ∈ L → loc.is_occupied = true →
      List.Perm (loc.location_id :: locsOccupiedIds (L.map (freeLoc (some loc.location_id))))
        (locsOccupiedIds L) := by
  intro L
  induction L with
  | nil =>
    intro _ hmem _
    cases hmem
  | cons x xs ih =>
    intro hdist hmem hocc
    have hx := (List.pairwise_cons.mp hdist).1
    have hxs := (List.pairwise_cons.mp hdist).2
    by_cases hid : x.location_id = loc.location_id
    · obtain rfl : loc = x := by
        rcases List.mem_cons.mp hmem with h1 | h1
        · exact h1
        · exact absurd hid (hx loc h1)
      have hmapxs : xs.map (freeLoc (some loc.location_id)) = xs := by
        rw [List.map_congr_left (g := id), List.map_id]
        intro a ha
        have hne : ¬ ((some loc.location_id == some a.location_id) = true) := by
          simp only [beq_iff_eq, Option.some_inj]
          exact hx a ha
        rw [freeLoc, if_neg hne]
        rfl
      have hself : freeLoc (some loc.location_id) loc = { loc with is_occupied := false } := by
        rw [freeLoc, if_pos]
        simp
      rw [List.map_cons, hmapxs, hself, locsOccupiedIds_cons_free _ _ rfl,
        locsOccupiedIds_cons_occ loc xs hocc]
    · have hmem2 : loc ∈ xs := by
        rcases List.mem_cons.mp hmem with h1 | h1
        · exact absurd (by rw [h1]) hid
        · exact h1
      have hxloc : freeLoc (some loc.location_id) x = x := by
        have hne : ¬ ((some loc.location_id == some x.location_id) = true) := by
          simp only [beq_iff_eq, Option.some_inj]
          exact fun he => hid he.symm
        rw [freeLoc, if_neg hne]
      rw [List.map_cons, hxloc]
      have ihx := ih hxs hmem2 hocc
      cases hxo : x.is_occupied with
      | true =>
        rw [locsOccupiedIds_cons_occ x _ hxo, locsOccupiedIds_cons_occ x xs hxo]
        exact ((List.Perm.swap x.location_id loc.location_id
          (locsOccupiedIds (xs.map (freeLoc (some loc.location_id))))).trans
            (ihx.cons x.location_id))
      | false =>
        rw [locsOccupiedIds_cons_free x _ hxo, locsOccupiedIds_cons_free x xs hxo]
        exact ihx

theorem pkgsActiveIds_cons (r : Package) (P : List Package) :
    pkgsActiveIds (r :: P) =
      (if isDeliveredStatus r.status = false then r.location_id.toList else []) ++
        pkgsActiveIds P := by
  cases hact : isDeliveredStatus r.status with
  | true => simp [pkgsActiveIds_cons_delivered r P hact]
  | false =>
    cases hl : r.location_id with
    | some i => simp [pkgsActiveIds_cons_active r P i hact hl, hl]
    | none => simp [pkgsActiveIds_cons_noloc r P hact hl, hl]

theorem setStatus_active_eq (b ns : String) (hns : isDeliveredStatus ns = false) :
    ∀ P : List Package, (∀ q ∈ P, q.barcode = b → isDeliveredStatus q.status = false) →
      pkgsActiveIds (P.map (setStatus b ns)) = pkgsActiveIds P := by
  intro P
  induction P with
  | nil =>
    intro _
    rfl
  | cons q qs ih =>
    intro hguard
    have hq := hguard q (List.mem_cons_self q qs)
    have hqs : ∀ r ∈ qs, r.barcode = b → isDeliveredStatus r.status = false :=
      fun r hr => hguard r (List.mem_cons_of_mem q hr)
    rw [List.map_cons, pkgsActiveIds_cons, pkgsActiveIds_cons, ih hqs]
    by_cases hqb : q.barcode = b
    · have hset : setStatus b ns q = { q with status := ns } := by
        rw [setStatus, if_pos]
        simpa using hqb
      rw [hset]
      simp [hns, hq hqb]
    · have hset : setStatus b ns q = q := by
        rw [setStatus, if_neg]
        simpa using hqb
      rw [hset]

theorem setStatus_delivered_perm (b ns : String) (p : Package) (i : Nat)
    (hns : isDeliveredStatus ns = true) (hpb : p.barcode = b)
    (hact : isDeliveredStatus p.status = false) (hloc : p.location_id = some i) :
    ∀ P : List Package, P.Pairwise (fun a c => a.barcode ≠ c.barcode) → p ∈ P →
      List.Perm (i :: pkgsActiveIds (P.map (setStatus b ns))) (pkgsActiveIds P) := by
  intro P
  induction P with
  | nil =>
    intro _ hmem
    cases hmem
  | cons q qs ih =>
    intro hdist hmem
    have hq := (List.pairwise_cons.mp hdist).1
    have hqs := (List.pairwise_cons.mp hdist).2
    by_cases hqb : q.barcode = b
    · obtain rfl : p = q := by
        rcases List.mem_cons.mp hmem with h1 | h1
        · exact h1
        · exact absurd (hqb.trans hpb.symm) (hq p h1)
      have hmapqs : qs.map (setStatus b ns) = qs := by
        rw [List.map_congr_left (g := id), List.map_id]
        intro r hr
        have hne : ¬ ((r.barcode == b) = true) := by
          simp only [beq_iff_eq]
          exact fun he => (hq r hr) (hpb.trans he.symm)
        rw [setStatus, if_neg hne]
        rfl
      have hset : setStatus b ns p = { p with status := ns } := by
        rw [setStatus, if_pos]
        simpa using hpb
      rw [List.map_cons, hmapqs, hset]
      have heq : pkgsActiveIds ({ p with status := ns } :: qs) = pkgsActiveIds qs := by
        rw [pkgsActiveIds_cons]
        simp [hns]
      have heq2 : pkgsActiveIds (p :: qs) = i :: pkgsActiveIds qs := by
        rw [pkgsActiveIds_cons]
        simp [hact, hloc]
      rw [heq, heq2]
    · have hmem2 : p ∈ qs := by
        rcases List.mem_cons.mp hmem with h1 | h1
        · exact absurd (h1 ▸ hpb) hqb
        · exact h1
      have hset : setStatus b ns q = q := by
        rw [setStatus, if_neg]
        simpa using hqb
      rw [List.map_cons, hset]
      have ihx := ih hqs hmem2
      cases hqact : isDeliveredStatus q.status with
      | true =>
        rw [pkgsActiveIds_cons_delivered q _ hqact, pkgsActiveIds_cons_delivered q qs hqact]
        exact ihx
      | false =>
        cases hl : q.location_id with
        | some j =>
          rw [pkgsActiveIds_cons_active q _ j hqact hl,
            pkgsActiveIds_cons_active q qs j hqact hl]
          exact (List.Perm.swap j i (pkgsActiveIds (qs.map (setStatus b ns)))).trans
            (ihx.cons j)
        | none =>
          rw [pkgsActiveIds_cons_noloc q _ hqact hl, pkgsActiveIds_cons_noloc q qs hqact hl]
          exact ihx

theorem setStatus_delivered_noloc_eq (b ns : String) (p : Package)
    (hns : isDeliveredStatus ns = true) (hpb : p.barcode = b)
    (hloc : p.location_id = none) :
    ∀ P : List Package, P.Pairwise (fun a c => a.barcode ≠ c.barcode) → p ∈ P →
      pkgsActiveIds (P.map (setStatus b ns)) = pkgsActiveIds P := by
  intro P
  induction P with
  | nil =>
    intro _ _
    rfl
  | cons q qs ih =>
    intro hdist hmem
    have hq := (List.pairwise_cons.mp hdist).1
    have hqs := (List.pairwise_cons.mp hdist).2
    by_cases hqb : q.barcode = b
    · obtain rfl : p = q := by
        rcases List.mem_cons.mp hmem with h1 | h1
        · exact h1
        · exact absurd (hqb.trans hpb.symm) (hq p h1)
      have hmapqs : qs.map (setStatus b ns) = qs := by
        rw [List.map_congr_left (g := id), List.map_id]
        intro r hr
        have hne : ¬ ((r.barcode == b) = true) := by
          simp only [beq_iff_eq]
          exact fun he => (hq r hr) (hpb.trans he.symm)
        rw [setStatus, if_neg hne]
        rfl
      have hset : setStatus b ns p = { p with status := ns } := by
        rw [setStatus, if_pos]
        simpa using hpb
      rw [List.map_cons, hmapqs, hset, pkgsActiveIds_cons, pkgsActiveIds_cons]
      simp [hns, hloc]
    · have hmem2 : p ∈ qs := by
        rcases List.mem_cons.mp hmem with h1 | h1
        · exact absurd (h1 ▸ hpb) hqb
        · exact h1
      have hset : setStatus b ns q = q := by
        rw [setStatus, if_neg]
        simpa using hqb
      rw [List.map_cons, hset, pkgsActiveIds_cons, pkgsActiveIds_cons,
        ih hqs hmem2]

theorem register_preserves_inv (s : DCState) (b : String) (w l wi h : ℚ)
    (d pr : String) (hinv : StateInv s) :
    StateInv (register_package s b w l wi h d pr).1 := by
  cases hany : s.packages.any (fun q => q.barcode == b) with
  | true => simpa [register_package, hany] using hinv
  | false =>
    cases hfind : s.locations.find? (fun l2 =>
        l2.category_id == (categorize_package w pr d).1 && !l2.is_occupied) with
    | none => simpa [register_package, hany, hfind] using hinv
    | some loc =>
      have hmem := List.mem_of_find?_eq_some hfind
      have hfree : loc.is_occupied = false := by
        have hpred := List.find?_some hfind
        simp only [Bool.and_eq_true, Bool.not_eq_true'] at hpred
        exact hpred.2
      have hlocs : (register_package s b w l wi h d pr).1.locations =
          s.locations.map (occupyLoc loc.location_id) := by
        simp [register_package, hany, hfind]
      have hpkgs : (register_package s b w l wi h d pr).1.packages =
          s.packages ++ [newPackage s.next_package_id b w l wi h d pr
            (categorize_package w pr d).1 loc.location_id] := by
        simp [register_package, hany, hfind]
      refine ⟨?_, register_preserves_barcodes s b w l wi h d pr hinv.barcodes, ?_⟩
      · rw [hlocs]
        exact locIds_map_pairwise _ (occupyLoc_location_id _) _ hinv.locIds
      · have hstored : isDeliveredStatus "Stored" = false := by decide
        have hsingle : pkgsActiveIds [newPackage s.next_package_id b w l wi h d pr
            (categorize_package w pr d).1 loc.location_id] = [loc.location_id] := by
          simp [pkgsActiveIds, newPackage, hstored]
        simp only [occupiedIds, activeIds, hlocs, hpkgs, pkgsActiveIds_append, hsingle]
        exact (occupy_filter_perm loc s.locations hinv.locIds hmem hfree).trans
          ((hinv.perm.cons loc.location_id).trans
            (List.perm_append_singleton loc.location_id
              (pkgsActiveIds s.packages)).symm)

theorem update_preserves_inv (s : DCState) (b ns : String) (hinv : StateInv s)
    (hguard : updGuard s b) : StateInv (update_package_status s b ns).1 := by
  cases hf : s.packages.find? (fun q => q.barcode == b) with
  | none => simpa [update_package_status, hf] using hinv
  | some pkg =>
    have hmem := List.mem_of_find?_eq_some hf
    have hpb : pkg.barcode = b := by simpa using List.find?_some hf
    have hact : isDeliveredStatus pkg.status = false := hguard pkg hmem hpb
    have hpkgs : (update_package_status s b ns).1.packages =
        s.packages.map (setStatus b ns) := by
      simp [update_package_status, hf]
    refine ⟨?_, update_preserves_barcodes s b ns hinv.barcodes, ?_⟩
    · cases hd : isDeliveredStatus ns with
      | true =>
        have hlocs : (update_package_status s b ns).1.locations =
            s.locations.map (freeLoc pkg.location_id) := by
          simp [update_package_status, hf, hd]
        rw [hlocs]
        exact locIds_map_pairwise _ (freeLoc_location_id _) _ hinv.locIds
      | false =>
        have hlocs : (update_package_status s b ns).1.locations = s.locations := by
          simp [update_package_status, hf, hd]
        rw [hlocs]
        exact hinv.locIds
    · cases hd : isDeliveredStatus ns with
      | false =>
        have hlocs : (update_package_status s b ns).1.locations = s.locations := by
          simp [update_package_status, hf, hd]
        simp only [occupiedIds, activeIds, hlocs, hpkgs]
        rw [setStatus_active_eq b ns hd s.packages (fun q hq hqb => hguard q hq hqb)]
        exact hinv.perm
      | true =>
        have hlocs : (update_package_status s b ns).1.locations =
            s.locations.map (freeLoc pkg.location_id) := by
          simp [update_package_status, hf, hd]
        cases hloc : pkg.location_id with
        | none =>
          have hmaploc : s.locations.map (freeLoc none) = s.locations := by
            rw [List.map_congr_left (g := id), List.map_id]
            intro a _
            rw [freeLoc, if_neg]
            · rfl
            · simp
          simp only [occupiedIds, activeIds, hlocs, hloc, hmaploc, hpkgs]
          rw [setStatus_delivered_noloc_eq b ns pkg hd hpb hloc s.packages
            hinv.barcodes hmem]
          exact hinv.perm
        | some i =>
          have hiact : i ∈ activeIds s := mem_pkgsActiveIds.mpr ⟨pkg, hmem, hact, hloc⟩
          have hiocc : i ∈ occupiedIds s := (hinv.perm.mem_iff).mpr hiact
          obtain ⟨lc, hlcmem, hlcocc, hlcid⟩ := mem_locsOccupiedIds.mp hiocc
          have hA := free_filter_perm lc s.locations hinv.locIds hlcmem hlcocc
          rw [hlcid] at hA
          have hB := setStatus_delivered_perm b ns pkg i hd hpb hact hloc s.packages
            hinv.barcodes hmem
          simp only [occupiedIds, activeIds, hlocs, hloc, hpkgs]
          exact (hA.trans (hinv.perm.trans hB.symm)).cons_inv

theorem stateInv_init : StateInv initState := by
  refine ⟨by decide, by simp [initState], ?_⟩
  have h1 : occupiedIds initState = [] := by decide
  have h2 : activeIds initState = [] := rfl
  rw [h1, h2]

theorem safeReachable_inv {s : DCState} (hs : SafeReachable s) : StateInv s := by
  induction hs with
  | init => exact stateInv_init
  | reg s2 b w l wi h d pr _ ih => exact register_preserves_inv s2 b w l wi h d pr ih
  | upd s2 b ns _ hg ih => exact update_preserves_inv s2 b ns ih hg

theorem locsOccupiedIds_nodup {L : List Location}
    (h : L.Pairwise (fun a b => a.location_id ≠ b.location_id)) :
    (locsOccupiedIds L).Nodup := by
  rw [locsOccupiedIds]
  have hsub : (List.filter (fun l => l.is_occupied) L).Pairwise
      (fun a b => a.location_id ≠ b.location_id) :=
    h.sublist (List.filter_sublist L)
  exact List.pairwise_map.mpr hsub

theorem nodup_active_pairwise :
    ∀ P : List Package, (pkgsActiveIds P).Nodup →
      P.Pairwise (fun p q => isDeliveredStatus p.status = false →
        isDeliveredStatus q.status = false → ∀ i, p.location_id = some i →
          q.location_id ≠ some i) := by
  intro P
  induction P with
  | nil =>
    intro _
    exact List.Pairwise.nil
  | cons p ps ih =>
    intro hnd
    cases hact : isDeliveredStatus p.status with
    | true =>
      rw [pkgsActiveIds_cons_delivered p ps hact] at hnd
      refine List.pairwise_cons.mpr ⟨?_, ih hnd⟩
      intro q _ h1
      rw [hact] at h1
      cases h1
    | false =>
      cases hl : p.location_id with
      | none =>
        rw [pkgsActiveIds_cons_noloc p ps hact hl] at hnd
        refine List.pairwise_cons.mpr ⟨?_, ih hnd⟩
        intro q _ _ _ i hpi
        rw [hl] at hpi
        cases hpi
      | some i =>
        rw [pkgsActiveIds_cons_active p ps i hact hl] at hnd
        have hni := (List.nodup_cons.mp hnd).1
        have hnd2 := (List.nodup_cons.mp hnd).2
        refine List.pairwise_cons.mpr ⟨?_, ih hnd2⟩
        intro q hq _ hqact j hpj hqj
        rw [hl] at hpj
        obtain rfl : i = j := by
          injection hpj
        exact hni (mem_pkgsActiveIds.mpr ⟨q, hq, hqact, hqj⟩)

/-- C6 as amended: in every state reachable by register and updateStatus
calls in which no update ever targets a package already in a delivered
status, no two packages currently Stored or InTransit share a location id.
(Without that restriction the claim is false, see the counterexample.) -/
theorem c6_no_shared_location {s : DCState} (hs : SafeReachable s) :
    s.packages.Pairwise (fun p q => sharesLocation p q = false) := by
  have hinv := safeReachable_inv hs
  have hnodup : (activeIds s).Nodup :=
    hinv.perm.nodup (locsOccupiedIds_nodup hinv.locIds)
  have hpw := nodup_active_pairwise s.packages hnodup
  apply hpw.imp
  intro p q hrel
  cases hshare : sharesLocation p q with
  | false => rfl
  | true =>
    exfalso
    rw [sharesLocation] at hshare
    simp only [Bool.and_eq_true, Bool.or_eq_true, beq_iff_eq, Bool.not_eq_true'] at hshare
    obtain ⟨⟨⟨hp, hq⟩, hpq⟩, hnn⟩ := hshare
    have hpact : isDeliveredStatus p.status = false := by
      rcases hp with h1 | h1 <;> rw [h1] <;> decide
    have hqact : isDeliveredStatus q.status = false := by
      rcases hq with h1 | h1 <;> rw [h1] <;> decide
    obtain ⟨i, hi⟩ := Option.ne_none_iff_exists.mp (by simpa using hnn)
    exact hrel hpact hqact i hi.symm (by rw [← hpq, ← hi])

/-- C6 counterexample: after the trace register A1, deliver A1, register A2,
set A1 back to Stored, the packages A1 and A2 are both Stored and both hold
location id 1: the unrestricted claim is false. -/
theorem c6_counterexample :
    ¬ (runOps revivalOps).packages.Pairwise (fun p q => sharesLocation p q = false) := by
  decide

/-- Witness for C6 as amended: a state with one registered package. -/
theorem c6_no_shared_location_witness :
    (register_package initState "W6" 10 1 1 1 "Elsewhere" "Standard").1.packages.Pairwise
      (fun p q => sharesLocation p q = false) :=
  c6_no_shared_location
    (SafeReachable.reg initState "W6" 10 1 1 1 "Elsewhere" "Standard" SafeReachable.init)

theorem idInZone_self (z : String) :
    ∀ {L : List Location}, L.Pairwise (fun a b => a.location_id ≠ b.location_id) →
      ∀ {l : Location}, l ∈ L → idInZone L z l.location_id = (l.zone == z) := by
  intro L
  induction L with
  | nil =>
    intro _ l hl
    cases hl
  | cons x xs ih =>
    intro hdist l hl
    have hx := (List.pairwise_cons.mp hdist).1
    have hxs := (List.pairwise_cons.mp hdist).2
    rw [idInZone, List.any_cons]
    rcases List.mem_cons.mp hl with rfl | hmem
    · have hhead : ((some l.location_id : Option Nat) == some l.location_id &&
          l.zone == z) = (l.zone == z) := by
        simp
      rw [hhead]
      cases hz : (l.zone == z) with
      | true => rfl
      | false =>
        rw [Bool.false_or, List.any_eq_false]
        intro l2 hl2 hpred
        simp only [Bool.and_eq_true, beq_iff_eq, Option.some.injEq] at hpred
        exact hx l2 hl2 hpred.1
    · have hhead : ((some l.location_id : Option Nat) == some x.location_id &&
          x.zone == z) = false := by
        have hne : ¬ l.location_id = x.location_id := fun he => hx l hmem he.symm
        simp [hne]
      rw [hhead, Bool.false_or]
      have hrec := ih hxs hmem
      rw [idInZone] at hrec
      exact hrec

theorem occupiedInZone_eq_countP (s : DCState) (z : String)
    (hdist : s.locations.Pairwise (fun a b => a.location_id ≠ b.location_id)) :
    occupiedInZone s z = (occupiedIds s).countP (idInZone s.locations z) := by
  rw [occupiedInZone, occupiedIds, locsOccupiedIds, List.countP_map, List.countP_filter,
    ← List.countP_eq_length_filter]
  apply List.countP_congr
  intro l hl
  simp only [Function.comp_apply]
  rw [idInZone_self z hdist hl]

theorem activePackagesInZone_eq_countP (s : DCState) (z : String) :
    activePackagesInZone s z = (activeIds s).countP (idInZone s.locations z) := by
  rw [activePackagesInZone, activeIds]
  induction s.packages with
  | nil => rfl
  | cons p ps ih =>
    rw [List.filter_cons]
    cases hact : isDeliveredStatus p.status with
    | true =>
      rw [pkgsActiveIds_cons_delivered p ps hact]
      simpa using ih
    | false =>
      cases hl : p.location_id with
      | none =>
        rw [pkgsActiveIds_cons_noloc p ps hact hl]
        have hfalse : (s.locations.any fun l =>
            (none : Option Nat) == some l.location_id && l.zone == z) = false := by
          rw [List.any_eq_false]
          intro l2 _ hp
          simp at hp
        simpa [hfalse] using ih
      | some i =>
        rw [pkgsActiveIds_cons_active p ps i hact hl, List.countP_cons]
        have hcond : (s.locations.any fun l =>
            (some i : Option Nat) == some l.location_id && l.zone == z) =
            idInZone s.locations z i := rfl
        simp only [Bool.not_false, Bool.true_and, hcond]
        cases hz : idInZone s.locations z i with
        | true => simp [hz, ih]
        | false => simp [hz, ih]

/-- C7 as amended: in every state reachable by register and updateStatus
calls in which no update ever targets a package already in a delivered
status, the number of occupied locations of each zone equals the number of
packages in a non delivered status whose assigned location lies in that
zone.  (Without that restriction the claim is false, see the
counterexample.) -/
theorem c7_occupancy_conservation {s : DCState} (hs : SafeReachable s) (z : String) :
    occupiedInZone s z = activePackagesInZone s z := by
  have hinv := safeReachable_inv hs
  rw [occupiedInZone_eq_countP s z hinv.locIds, activePackagesInZone_eq_countP s z]
  exact hinv.perm.countP_eq _

/-- C7 counterexample: after the trace register B1, deliver B1, register B2,
deliver B1 again, zone A has no occupied location although the Stored
package B2 still holds location id 1 there: the unrestricted claim is
false. -/
theorem c7_counterexample :
    occupiedInZone (runOps redeliveryOps) "A" ≠
      activePackagesInZone (runOps redeliveryOps) "A" := by
  decide

/-- Witness for C7 as amended: a state with one registered package. -/
theorem c7_occupancy_conservation_witness :
    occupiedInZone (register_package initState "W7" 10 1 1 1 "Elsewhere" "Standard").1 "A" =
      activePackagesInZone
        (register_package initState "W7" 10 1 1 1 "Elsewhere" "Standard").1 "A" :=
  c7_occupancy_conservation
    (SafeReachable.reg initState "W7" 10 1 1 1 "Elsewhere" "Standard" SafeReachable.init) "A"

/-- Witness for C2 as amended: a destination with two commas fires the
International rule at a non express priority. -/
theorem c2_international_rule_witness :
    categorize_package 60 "Standard" "London, UK, International" = (5, "International") :=
  (c2_international_rule 60 "Standard" "London, UK, International" (by decide)).mpr
    (by decide)
